import Mathlib

/-!
Verification of the Header Hunter inventory engine.

Shallow embedding of the core logic of `business_rules.py`, `hh_logic.py`,
`hh_ingest.py` and `hh_history.py`.  Python floats are modelled as rationals,
Python ints as integers, and dates as integer day numbers (so that
`(a - b).days` becomes plain integer subtraction).  Fallible code
(`raise ValueError`) is modelled with `Except`.
-/

/-- Validation failures raised by the business-rules module
(`raise ValueError` in `business_rules.py`). -/
inductive ValidationError where
  | negativeVelocity (velocity : ℚ)
deriving DecidableEq

/-- The seven status tags produced by `StatusDeterminer`
(`STATUS_NEW` … `STATUS_MINIMAL` in `business_rules.py`). -/
inductive Status where
  | new | cold | hot | reorder | good | dead | minimal
deriving DecidableEq

/-- Immutable container for status-determination thresholds
(`StatusRules` in `business_rules.py`). -/
structure StatusRules where
  hot_velocity : ℚ
  reorder_point : ℚ
  target_wos : ℚ
  dead_wos : ℚ
  dead_on_hand : ℤ
  good_velocity_multiplier : ℚ := 1/4

/-- Per-SKU metrics (`InventoryMetrics` in `business_rules.py`).
Dates are integer day numbers. -/
structure InventoryMetrics where
  stock : ℤ
  incoming : ℤ
  is_accessory : Bool
  total_units_sold : ℚ
  report_days : ℚ
  report_start_date : ℤ
  last_sale_date : Option ℤ := none

/-- The validation performed by `InventoryMetrics.__post_init__`:
construction fails unless all of these hold. -/
def InventoryMetrics.Valid (m : InventoryMetrics) : Prop :=
  0 ≤ m.stock ∧ 0 ≤ m.incoming ∧ 0 ≤ m.total_units_sold ∧ 0 < m.report_days

instance (m : InventoryMetrics) : Decidable m.Valid := by
  unfold InventoryMetrics.Valid; infer_instance

/-- The `period_days` local of `InventoryMetrics.calculate_velocity`: the full
`report_days` unless the item is out of stock and has a last-sale date, in
which case the period is `max(1, (last_sale_date - report_start_date).days)`
capped at `report_days`.  (A Python `datetime` is always truthy, so the guard
`self.stock == 0 and self.last_sale_date` is `stock = 0 ∧ last_sale_date.isSome`.) -/
def InventoryMetrics.period_days (m : InventoryMetrics) : ℚ :=
  match m.last_sale_date with
  | some lastSale =>
      if m.stock = 0 then
        min (max 1 ((lastSale - m.report_start_date : ℤ) : ℚ)) m.report_days
      else m.report_days
  | none => m.report_days

/-- `InventoryMetrics.calculate_velocity` of `business_rules.py`:
units per week over the active period, `0` when the period is not positive. -/
def InventoryMetrics.calculate_velocity (m : InventoryMetrics) : ℚ :=
  let weeks := m.period_days / 7
  if 0 < weeks then m.total_units_sold / weeks else 0

/-- `StatusDeterminer.calculate_effective_wos` of `business_rules.py`. -/
def calculate_effective_wos (stock incoming : ℤ) (velocity : ℚ)
    (silence_threshold : ℚ := 999) : Except ValidationError ℚ :=
  if velocity < 0 then .error (.negativeVelocity velocity)
  else if velocity = 0 then .ok silence_threshold
  else .ok (((max 0 stock + incoming : ℤ) : ℚ) / velocity)

/-- `StatusDeterminer.determine_status` of `business_rules.py`: the five-tier
decision procedure.  The two `calculate_effective_wos` calls happen before the
tiers, so a negative-velocity error would propagate (it never does for valid
metrics). -/
def determine_status (m : InventoryMetrics) (rules : StatusRules) :
    Except ValidationError Status :=
  let velocity := m.calculate_velocity
  let effective_oh : ℤ := max 0 m.stock
  let incoming := m.incoming
  (calculate_effective_wos effective_oh 0 velocity).bind fun wos =>
  (calculate_effective_wos effective_oh incoming velocity).bind fun effective_wos =>
  if velocity = 0 then
    if 0 < incoming then .ok .new
    else if 0 < effective_oh then .ok .cold
    else .ok .minimal
  else if rules.hot_velocity ≤ velocity then
    if wos < rules.reorder_point then
      if rules.reorder_point ≤ effective_wos then .ok .good else .ok .reorder
    else .ok .hot
  else if rules.hot_velocity * rules.good_velocity_multiplier ≤ velocity then
    if wos < rules.reorder_point then
      if rules.reorder_point ≤ effective_wos then .ok .good else .ok .reorder
    else .ok .good
  else if rules.dead_wos < wos ∧ (rules.dead_on_hand : ℤ) < effective_oh then .ok .dead
  else .ok .minimal

/-- `calculate_soq` of `business_rules.py`: suggested order quantity in units,
rounded up to whole cases. -/
def calculate_soq (m : InventoryMetrics) (rules : StatusRules) (case_size : ℤ) : ℤ :=
  let velocity := m.calculate_velocity
  let target_stock := velocity * rules.target_wos
  let net_need : ℚ := target_stock - ((m.stock + m.incoming : ℤ) : ℚ)
  if net_need ≤ 0 then 0
  else ⌈net_need / ((max 1 case_size : ℤ) : ℚ)⌉ * case_size

/-- The `net_need` intermediate of `calculate_soq`. -/
def netNeed (m : InventoryMetrics) (rules : StatusRules) : ℚ :=
  m.calculate_velocity * rules.target_wos - ((m.stock + m.incoming : ℤ) : ℚ)

/-- The status decision procedure exactly as the specification words it
(spec §4.2, claim C1): top-down tiers, `wos` always with incoming = 0,
effective WOS including incoming.  Used only to be compared against
`determine_status`. -/
def claimedStatus (m : InventoryMetrics) (rules : StatusRules) : Status :=
  let velocity := m.calculate_velocity
  if velocity = 0 then
    if 0 < m.incoming then .new
    else if 0 < m.stock then .cold
    else .minimal
  else
    let wos : ℚ := (m.stock : ℚ) / velocity
    let effective_wos : ℚ := ((m.stock + m.incoming : ℤ) : ℚ) / velocity
    if rules.hot_velocity ≤ velocity then
      if wos < rules.reorder_point then
        if rules.reorder_point ≤ effective_wos then .good else .reorder
      else .hot
    else if rules.hot_velocity * rules.good_velocity_multiplier ≤ velocity then
      if wos < rules.reorder_point then
        if rules.reorder_point ≤ effective_wos then .good else .reorder
      else .good
    else if rules.dead_wos < wos ∧ (rules.dead_on_hand : ℤ) < m.stock then .dead
    else .minimal

/-- The three configured store locations of `hh_logic.py`
(`locations = ['Hill', 'Valley', 'Jasper']`). -/
inductive Loc where
  | hill | valley | jasper
deriving DecidableEq

/-- The PO-destination routing of `run_logic_pandas`.  The argument is the
already upper-cased setting value
(`po_destination = settings.get('po_destination', 'J').upper()`):
`'H'` routes to Hill, `'V'` to Valley, anything else to Jasper. -/
def poDest (s : String) : Loc :=
  if s = "H" then .hill
  else if s = "V" then .valley
  else .jasper

/-- The per-SKU row of `master` consumed by the incoming reconciliation:
the aggregated purchase-order quantity `PO_Qty` and the six transfer columns
`Trans_<loc>` (outgoing) and `Trans_To_<loc>` (inbound). -/
structure ReconRow where
  poQty : ℚ
  transHill : ℚ
  transValley : ℚ
  transJasper : ℚ
  transToHill : ℚ
  transToValley : ℚ
  transToJasper : ℚ

/-- The `PO_Net_<loc>` columns: the whole PO quantity goes to the destination
location, the other two receive 0. -/
def poNet (dest : Loc) (row : ReconRow) (loc : Loc) : ℚ :=
  if loc = dest then row.poQty else 0

/-- The `Trans_To_<loc>` column selected per location. -/
def transTo (row : ReconRow) : Loc → ℚ
  | .hill => row.transToHill
  | .valley => row.transToValley
  | .jasper => row.transToJasper

/-- The `Trans_<loc>` (outgoing-transfer) column selected per location. -/
def transFrom (row : ReconRow) : Loc → ℚ
  | .hill => row.transHill
  | .valley => row.transValley
  | .jasper => row.transJasper

/-- The `<loc>_Inc_Num` column of `run_logic_pandas`:
`(incoming_po + incoming_transfers - outgoing_transfers).clip(lower=0)`. -/
def incNum (dest : Loc) (row : ReconRow) (loc : Loc) : ℚ :=
  max 0 (poNet dest row loc + transTo row loc - transFrom row loc)

/-- A raw snapshot-file row after `ingest_file`'s column mapping and
normalization (`hh_ingest.py`): normalized SKU, normalized location,
quantity sold. -/
structure RawRow where
  sku : String
  location : String
  qty : ℚ
deriving DecidableEq

/-- A Memory-Bank row: a `RawRow` stamped with the file's
`Report_End_Date` (`df['Report_End_Date'] = report_date`). -/
structure HRow where
  sku : String
  location : String
  date : ℤ
  qty : ℚ
deriving DecidableEq

/-- The date stamping of `ingest_file`: every row of one file receives the
same report end date extracted from the filename. -/
def stampRows (file : List RawRow) (d : ℤ) : List HRow :=
  file.map fun r => ⟨r.sku, r.location, d, r.qty⟩

/-- The smart merge of `update_memory_bank` (`hh_ingest.py`): all existing
store rows with this file's `Report_End_Date` are removed
(`master_df[master_df['Report_End_Date'] != report_date]`), then the new
rows are appended (`pd.concat`). -/
def ingestStep (master : List HRow) (file : List RawRow) (d : ℤ) : List HRow :=
  (master.filter fun r => r.date ≠ d) ++ stampRows file d

/-- The invariant claimed for the Memory Bank: at most one row per
(SKU, location, report_end_date) triple. -/
def KeyUnique (s : List HRow) : Prop :=
  s.Pairwise fun a b => ¬ (a.sku = b.sku ∧ a.location = b.location ∧ a.date = b.date)

/-- Store states reachable by ingestion runs: the store is created empty and
grows only through `ingestStep`. -/
inductive Reachable : List HRow → Prop where
  | empty : Reachable []
  | step (s : List HRow) (file : List RawRow) (d : ℤ) :
      Reachable s → Reachable (ingestStep s file d)

/-- Reachability when every ingested snapshot file has at most one row per
(SKU, location) pair. -/
inductive ReachableDistinct : List HRow → Prop where
  | empty : ReachableDistinct []
  | step (s : List HRow) (file : List RawRow) (d : ℤ) :
      ReachableDistinct s →
      (file.map fun r => (r.sku, r.location)).Nodup →
      ReachableDistinct (ingestStep s file d)

/-- Trend classifications.  `noData`, `stable`, `growing`, `declining` are the
outcomes of `compute_rolling_velocities` in `hh_history.py` (`growing` and
`declining` carry the percentage embedded in the formatted string);
`newSpiking` exists only as the outcome the spec claims for an empty prior
window and is never produced by the code. -/
inductive Trend where
  | noData
  | stable
  | growing (pct : ℚ)
  | declining (pct : ℚ)
  | newSpiking
deriving DecidableEq

/-- The result dictionary of `compute_rolling_velocities`. -/
structure RollingMetrics where
  qty_4w : ℚ
  qty_12w : ℚ
  qty_lifetime : ℚ
  vel_4w : ℚ
  vel_12w : ℚ
  vel_lifetime : ℚ
  trend : Trend

/-- The SKU/location filtering at the top of `compute_rolling_velocities`
(`df_sku = df_history[df_history['SKU'] == sku]`, then the optional location
filter; an empty location string is falsy in Python and skips the filter). -/
def skuRows (hist : List HRow) (sku : String) (location : Option String) :
    List HRow :=
  let df_sku := hist.filter fun r => r.sku = sku
  match location with
  | some loc => if loc = "" then df_sku else df_sku.filter fun r => r.location = loc
  | none => df_sku

/-- The pandas median of a datetime series: sort, take the middle element for
odd length, the mean of the two middle elements for even length. -/
def medianDate (dates : List ℤ) : ℚ :=
  let s := List.insertionSort (· ≤ ·) dates
  if s.length % 2 = 1 then ((s.getD (s.length / 2) 0 : ℤ) : ℚ)
  else (((s.getD (s.length / 2 - 1) 0 : ℤ) : ℚ) + ((s.getD (s.length / 2) 0 : ℤ) : ℚ)) / 2

/-- Sum of quantities of rows dated on or after the median
(`recent = df_12w[df_12w['Report_End_Date'] >= mid_point]['Quantity'].sum()`). -/
def recentSum (rows : List HRow) (mid : ℚ) : ℚ :=
  ((rows.filter fun r => mid ≤ (r.date : ℚ)).map (·.qty)).sum

/-- Sum of quantities of rows dated strictly before the median
(`older = df_12w[df_12w['Report_End_Date'] < mid_point]['Quantity'].sum()`). -/
def olderSum (rows : List HRow) (mid : ℚ) : ℚ :=
  ((rows.filter fun r => (r.date : ℚ) < mid).map (·.qty)).sum

/-- The trend block of `compute_rolling_velocities`: only computed when the
12-week window has at least 2 rows; splits that window at the median report
date and compares the two halves with ±20% thresholds; defaults to `Stable`
(also when the older half sums to zero or less). -/
def trendOf (rows12 : List HRow) : Trend :=
  if 2 ≤ rows12.length then
    let mid := medianDate (rows12.map (·.date))
    let recent := recentSum rows12 mid
    let older := olderSum rows12 mid
    if 0 < older then
      let pct := (recent - older) / older * 100
      if 20 < pct then .growing pct
      else if pct < -20 then .declining pct
      else .stable
    else .stable
  else .stable

/-- `compute_rolling_velocities` of `hh_history.py`: 4-week, 12-week and
lifetime quantities and velocities for one SKU (optionally one location), plus
the trend; a SKU with no rows yields all zeros and `No data`. -/
def compute_rolling_velocities (hist : List HRow) (sku : String)
    (location : Option String) (as_of_date : ℤ) : RollingMetrics :=
  let df_sku := skuRows hist sku location
  if df_sku.length = 0 then ⟨0, 0, 0, 0, 0, 0, .noData⟩
  else
    let df_4w := df_sku.filter fun r => as_of_date - 28 ≤ r.date
    let df_12w := df_sku.filter fun r => as_of_date - 84 ≤ r.date
    let df_lifetime := df_sku
    let qty_4w := (df_4w.map (·.qty)).sum
    let qty_12w := (df_12w.map (·.qty)).sum
    let qty_lifetime := (df_lifetime.map (·.qty)).sum
    let vel_4w := if 0 < df_4w.length then qty_4w / 4 else 0
    let vel_12w := if 0 < df_12w.length then qty_12w / 12 else 0
    let vel_lifetime :=
      if 0 < df_lifetime.length then qty_lifetime / ((df_lifetime.length : ℚ) * (7 / 7))
      else 0
    ⟨qty_4w, qty_12w, qty_lifetime, vel_4w, vel_12w, vel_lifetime, trendOf df_12w⟩

/-- The trend rule exactly as claim C9 words it: compare the current window's
velocity against an equal-length prior window, ±25% thresholds, and
`New/Spiking` when the prior window has zero data while the current window is
positive.  Used only to be compared against the code's trend. -/
def claimedTrend (hist : List HRow) (sku : String) (location : Option String)
    (as_of_date : ℤ) (window_days : ℤ) : Trend :=
  let rows := skuRows hist sku location
  let current := rows.filter fun r =>
    as_of_date - window_days ≤ r.date ∧ r.date ≤ as_of_date
  let prior := rows.filter fun r =>
    as_of_date - 2 * window_days ≤ r.date ∧ r.date < as_of_date - window_days
  let curVel := ((current.map (·.qty)).sum) / ((window_days : ℚ) / 7)
  let priorVel := ((prior.map (·.qty)).sum) / ((window_days : ℚ) / 7)
  let growth := (curVel - priorVel) / priorVel * 100
  if prior.length = 0 ∧ 0 < curVel then .newSpiking
  else if priorVel ≠ 0 ∧ 25 < growth then .growing growth
  else if priorVel ≠ 0 ∧ growth < -25 then .declining growth
  else .stable

/-- `DEFAULT_SILENCE_THRESHOLD` of `hh_utils.py`. -/
def DEFAULT_SILENCE_THRESHOLD : ℚ := 999

/-- The per-row output of `apply_soq_and_status` in `run_logic_pandas`
(`hh_logic.py`): the `SOQ`, `Status`, `Vel` and `WOS` columns. -/
structure SoqStatusRow where
  soq : ℤ
  status : Except ValidationError Status
  vel : ℚ
  wos : ℚ

/-- `apply_soq_and_status` of `run_logic_pandas` (`hh_logic.py`): builds the
metrics for one SKU/location, computes the time-aware velocity via
`metrics.calculate_velocity()`, the SOQ via `calculate_soq` with
`safe_case_size = max(case_size, 1)`, the status via
`StatusDeterminer.determine_status`, and the adjusted WOS.  No history store
is consulted anywhere in this computation. -/
def apply_soq_and_status (m : InventoryMetrics) (rules : StatusRules)
    (case_size : ℤ) : SoqStatusRow :=
  let adj_velocity := m.calculate_velocity
  let safe_case_size := max case_size 1
  let soq := calculate_soq m rules safe_case_size
  let status := determine_status m rules
  let adj_wos :=
    if 0 < adj_velocity then (m.stock : ℚ) / adj_velocity
    else if m.stock = 0 then 0
    else DEFAULT_SILENCE_THRESHOLD
  ⟨soq, status, adj_velocity, adj_wos⟩

/-- The velocity-selection rule exactly as claim C6 words it: the rolling
4-week velocity from the history store whenever it is strictly positive,
the current-run velocity otherwise.  Used only to be compared against the
code's behaviour. -/
def claimedUsedVelocity (hist : List HRow) (sku : String)
    (location : Option String) (as_of_date : ℤ) (m : InventoryMetrics) : ℚ :=
  let v4 := (compute_rolling_velocities hist sku location as_of_date).vel_4w
  if 0 < v4 then v4 else m.calculate_velocity

lemma period_days_pos (m : InventoryMetrics) (h : m.Valid) : 0 < m.period_days := by
  obtain ⟨_, _, _, hr⟩ := h
  unfold InventoryMetrics.period_days
  match hls : m.last_sale_date with
  | none => exact hr
  | some lastSale =>
      by_cases hs : m.stock = 0
      · simp only [hs, if_true]
        exact lt_min (lt_of_lt_of_le one_pos (le_max_left _ _)) hr
      · simp only [hs, if_false]
        exact hr

lemma velocity_nonneg (m : InventoryMetrics) (h : m.Valid) :
    0 ≤ m.calculate_velocity := by
  have hp := period_days_pos m h
  unfold InventoryMetrics.calculate_velocity
  have hw : 0 < m.period_days / 7 := by positivity
  simp only [hw, if_true]
  exact div_nonneg h.2.2.1 hw.le

lemma effective_wos_zero (stock incoming : ℤ) (t : ℚ) :
    calculate_effective_wos stock incoming 0 t = .ok t := by
  simp [calculate_effective_wos]

lemma effective_wos_pos (stock incoming : ℤ) (v t : ℚ) (hv : 0 < v) :
    calculate_effective_wos stock incoming v t
      = .ok (((max 0 stock + incoming : ℤ) : ℚ) / v) := by
  simp [calculate_effective_wos, not_lt.mpr hv.le, ne_of_gt hv]

/-- C1: for every valid `InventoryMetrics` and every `StatusRules`,
`determine_status` returns exactly the tag given by the five-tier top-down
decision procedure of the spec (first matching tier wins, `wos` computed with
incoming = 0, effective WOS including incoming, comparison operators as
stated). -/
theorem determine_status_matches_spec (m : InventoryMetrics) (rules : StatusRules)
    (h : m.Valid) : determine_status m rules = .ok (claimedStatus m rules) := by
  have hoh : max 0 m.stock = m.stock := max_eq_right h.1
  have hv := velocity_nonneg m h
  rcases hv.eq_or_lt with hv0 | hvpos
  · have hv0' : m.calculate_velocity = 0 := hv0.symm
    simp only [determine_status, claimedStatus, hv0', effective_wos_zero,
      Except.bind, hoh, if_true]
    split_ifs <;> rfl
  · simp only [determine_status, claimedStatus, effective_wos_pos _ _ _ _ hvpos,
      Except.bind, hvpos.ne', if_false, hoh, add_zero, Int.cast_add]
    split_ifs <;> rfl

/-- C1 witness: the spec's reorder scenario (velocity 3, hot_velocity 2,
reorder_point 2.5, stock 4, incoming 0). -/
theorem determine_status_matches_spec_witness :
    (⟨4, 0, false, 3, 7, 0, none⟩ : InventoryMetrics).Valid ∧
    determine_status ⟨4, 0, false, 3, 7, 0, none⟩ ⟨2, 5/2, 4, 26, 5, 1/4⟩
      = .ok (claimedStatus ⟨4, 0, false, 3, 7, 0, none⟩ ⟨2, 5/2, 4, 26, 5, 1/4⟩) :=
  ⟨by decide, determine_status_matches_spec _ _ (by decide)⟩

/-- C10: for every valid `InventoryMetrics` with strictly positive computed
velocity, `determine_status` never returns `New` or `Cold`. -/
theorem positive_velocity_never_new_or_cold (m : InventoryMetrics)
    (rules : StatusRules) (s : Status) (hv : 0 < m.calculate_velocity)
    (hs : determine_status m rules = .ok s) : s ≠ .new ∧ s ≠ .cold := by
  simp only [determine_status, effective_wos_pos _ _ _ _ hv, Except.bind,
    hv.ne', if_false] at hs
  split_ifs at hs <;> (injection hs with h'; subst h'; decide)

/-- C10 witness: a SKU with velocity 3 comes out as `Reorder`, which is
neither `New` nor `Cold`. -/
theorem positive_velocity_never_new_or_cold_witness :
    Status.reorder ≠ Status.new ∧ Status.reorder ≠ Status.cold :=
  positive_velocity_never_new_or_cold ⟨4, 0, false, 3, 7, 0, none⟩
    ⟨2, 5/2, 4, 26, 5, 1/4⟩ .reorder
    (by norm_num [InventoryMetrics.calculate_velocity, InventoryMetrics.period_days])
    (by norm_num [determine_status, calculate_effective_wos,
        InventoryMetrics.calculate_velocity, InventoryMetrics.period_days, Except.bind])

/-- C2: for every valid `InventoryMetrics`, the velocity is
`total_units_sold / (active_period / 7)` where the active period is
`report_days`, except when `stock = 0` and a last-sale date is present, in
which case it is `max 1 (days between report_start_date and last_sale_date)`
clamped to not exceed `report_days`; if the computed period is zero the
velocity is zero. -/
theorem calculate_velocity_spec (m : InventoryMetrics) (h : m.Valid) :
    m.calculate_velocity = m.total_units_sold / (m.period_days / 7) ∧
    (∀ d : ℤ, m.stock = 0 → m.last_sale_date = some d →
      m.period_days = min (max 1 ((d - m.report_start_date : ℤ) : ℚ)) m.report_days) ∧
    (¬ (m.stock = 0 ∧ m.last_sale_date.isSome) → m.period_days = m.report_days) ∧
    (∀ m' : InventoryMetrics, m'.period_days = 0 → m'.calculate_velocity = 0) := by
  refine ⟨?_, ?_, ?_, ?_⟩
  · have hw : 0 < m.period_days / 7 := by
      have := period_days_pos m h; positivity
    simp [InventoryMetrics.calculate_velocity, hw]
  · intro d hs hd
    simp [InventoryMetrics.period_days, hd, hs]
  · intro hn
    unfold InventoryMetrics.period_days
    match hd : m.last_sale_date with
    | none => rfl
    | some d =>
        have hs : ¬ m.stock = 0 := by
          intro hs0; exact hn ⟨hs0, by simp [hd]⟩
        simp [hs]
  · intro m' h0
    simp [InventoryMetrics.calculate_velocity, h0]

/-- C2 witness: an out-of-stock SKU whose last sale was 10 days into a
30-day window. -/
theorem calculate_velocity_spec_witness :
    (⟨0, 0, false, 20, 30, 0, some 10⟩ : InventoryMetrics).calculate_velocity
      = 20 / ((10 : ℚ) / 7) ∧
    (⟨0, 0, false, 20, 30, 0, some 10⟩ : InventoryMetrics).period_days
      = min (max 1 ((10 : ℚ))) 30 := by
  have h := calculate_velocity_spec ⟨0, 0, false, 20, 30, 0, some 10⟩ (by decide)
  have h2 := h.2.1 10 rfl rfl
  refine ⟨?_, by simpa using h2⟩
  rw [h.1]
  norm_num [h2]

/-- C3: `calculate_effective_wos` returns the `silence_threshold` sentinel
(default 999) whenever velocity is 0; for positive velocity it returns
`(max 0 stock + incoming) / velocity`; for negative velocity it fails with a
validation error. -/
theorem calculate_effective_wos_spec (stock incoming : ℤ) (velocity threshold : ℚ) :
    calculate_effective_wos stock incoming 0 threshold = .ok threshold ∧
    calculate_effective_wos stock incoming 0 = .ok (999 : ℚ) ∧
    (0 < velocity → calculate_effective_wos stock incoming velocity threshold
        = .ok (((max 0 stock + incoming : ℤ) : ℚ) / velocity)) ∧
    (velocity < 0 → calculate_effective_wos stock incoming velocity threshold
        = .error (.negativeVelocity velocity)) := by
  refine ⟨effective_wos_zero _ _ _, effective_wos_zero _ _ _,
    fun hv => effective_wos_pos _ _ _ _ hv, fun hv => ?_⟩
  simp [calculate_effective_wos, hv]

/-- C3 witness: concrete evaluations at velocity 0, 2 and -1. -/
theorem calculate_effective_wos_spec_witness :
    calculate_effective_wos 3 2 0 999 = .ok 999 ∧
    calculate_effective_wos 3 2 2 999 = .ok (((max 0 (3 : ℤ) + 2 : ℤ) : ℚ) / 2) ∧
    calculate_effective_wos 3 2 (-1) 999 = .error (.negativeVelocity (-1)) :=
  ⟨(calculate_effective_wos_spec 3 2 2 999).1,
   (calculate_effective_wos_spec 3 2 2 999).2.2.1 (by norm_num),
   (calculate_effective_wos_spec 3 2 (-1) 999).2.2.2 (by norm_num)⟩

lemma calculate_soq_eq (m : InventoryMetrics) (rules : StatusRules) (case_size : ℤ) :
    calculate_soq m rules case_size =
      if netNeed m rules ≤ 0 then 0
      else ⌈netNeed m rules / ((max 1 case_size : ℤ) : ℚ)⌉ * case_size := rfl

/-- C4: for `case_size ≥ 1`, `calculate_soq` returns 0 when
`net_need = velocity × target_wos − (stock + incoming)` is non-positive, and
otherwise `ceil(net_need / case_size) × case_size`: the result is never
negative, is always a whole multiple of `case_size`, equals `net_need` when
`net_need` is an exact multiple of `case_size`, and is otherwise strictly the
next multiple above `net_need`. -/
theorem calculate_soq_spec (m : InventoryMetrics) (rules : StatusRules)
    (case_size : ℤ) (hcs : 1 ≤ case_size) :
    (netNeed m rules ≤ 0 → calculate_soq m rules case_size = 0) ∧
    (0 < netNeed m rules →
      calculate_soq m rules case_size
        = ⌈netNeed m rules / (case_size : ℚ)⌉ * case_size) ∧
    0 ≤ calculate_soq m rules case_size ∧
    case_size ∣ calculate_soq m rules case_size ∧
    (0 < netNeed m rules → ∀ k : ℤ, netNeed m rules = (k : ℚ) * case_size →
      (calculate_soq m rules case_size : ℚ) = netNeed m rules) ∧
    (0 < netNeed m rules → (∀ k : ℤ, netNeed m rules ≠ (k : ℚ) * case_size) →
      netNeed m rules < (calculate_soq m rules case_size : ℚ) ∧
      (calculate_soq m rules case_size : ℚ) < netNeed m rules + case_size) := by
  have hmax : max 1 case_size = case_size := max_eq_right hcs
  have hcs0 : (0 : ℤ) < case_size := lt_of_lt_of_le one_pos hcs
  have hcsQ : (0 : ℚ) < (case_size : ℚ) := by exact_mod_cast hcs0
  set n := netNeed m rules with hn
  have heq : calculate_soq m rules case_size =
      if n ≤ 0 then 0 else ⌈n / (case_size : ℚ)⌉ * case_size := by
    rw [calculate_soq_eq, hmax]
  by_cases h0 : n ≤ 0
  · refine ⟨fun _ => by rw [heq, if_pos h0], fun hpos => absurd hpos (not_lt.mpr h0),
      ?_, ?_, fun hpos => absurd hpos (not_lt.mpr h0),
      fun hpos => absurd hpos (not_lt.mpr h0)⟩
    · rw [heq, if_pos h0]
    · rw [heq, if_pos h0]
      exact dvd_zero _
  · have hpos : 0 < n := not_le.mp h0
    have hceil : calculate_soq m rules case_size = ⌈n / (case_size : ℚ)⌉ * case_size := by
      rw [heq, if_neg h0]
    have hceil_pos : 0 < ⌈n / (case_size : ℚ)⌉ :=
      Int.ceil_pos.mpr (div_pos hpos hcsQ)
    refine ⟨fun h => absurd hpos (not_lt.mpr h), fun _ => hceil,
      by rw [hceil]; positivity, by rw [hceil]; exact dvd_mul_left _ _, ?_, ?_⟩
    · intro _ k hk
      have hdiv : n / (case_size : ℚ) = (k : ℚ) := by
        rw [hk]; field_simp
      rw [hceil, hdiv, Int.ceil_intCast]
      push_cast
      rw [hk]
    · intro _ hnm
      have hx : n / (case_size : ℚ) * case_size = n := div_mul_cancel₀ n hcsQ.ne'
      have hstrict : n / (case_size : ℚ) < (⌈n / (case_size : ℚ)⌉ : ℚ) := by
        rcases lt_or_eq_of_le (Int.le_ceil (n / (case_size : ℚ))) with h | h
        · exact h
        · exfalso
          exact hnm ⌈n / (case_size : ℚ)⌉ (by rw [← h, hx])
      constructor
      · rw [hceil]
        push_cast
        calc n = n / (case_size : ℚ) * case_size := hx.symm
        _ < (⌈n / (case_size : ℚ)⌉ : ℚ) * case_size :=
            mul_lt_mul_of_pos_right hstrict hcsQ
      · rw [hceil]
        push_cast
        calc (⌈n / (case_size : ℚ)⌉ : ℚ) * case_size
            < (n / (case_size : ℚ) + 1) * case_size :=
              mul_lt_mul_of_pos_right (Int.ceil_lt_add_one _) hcsQ
        _ = n + case_size := by rw [add_mul, hx, one_mul]

/-- C4 witness: the spec scenario target_wos = 4, velocity = 2, stock = 3,
incoming = 0, case_size = 5 gives net_need = 5 and SOQ = 5. -/
theorem calculate_soq_spec_witness :
    0 < netNeed ⟨3, 0, false, 2, 7, 0, none⟩ ⟨2, 5/2, 4, 26, 5, 1/4⟩ ∧
    calculate_soq ⟨3, 0, false, 2, 7, 0, none⟩ ⟨2, 5/2, 4, 26, 5, 1/4⟩ 5
      = ⌈netNeed ⟨3, 0, false, 2, 7, 0, none⟩ ⟨2, 5/2, 4, 26, 5, 1/4⟩ / (5 : ℚ)⌉ * 5 ∧
    0 ≤ calculate_soq ⟨3, 0, false, 2, 7, 0, none⟩ ⟨2, 5/2, 4, 26, 5, 1/4⟩ 5 ∧
    (5 : ℤ) ∣ calculate_soq ⟨3, 0, false, 2, 7, 0, none⟩ ⟨2, 5/2, 4, 26, 5, 1/4⟩ 5 := by
  have hn : 0 < netNeed ⟨3, 0, false, 2, 7, 0, none⟩ ⟨2, 5/2, 4, 26, 5, 1/4⟩ := by
    norm_num [netNeed, InventoryMetrics.calculate_velocity, InventoryMetrics.period_days]
  have h := calculate_soq_spec ⟨3, 0, false, 2, 7, 0, none⟩ ⟨2, 5/2, 4, 26, 5, 1/4⟩ 5
    (by norm_num)
  exact ⟨hn, h.2.1 hn, h.2.2.1, h.2.2.2.1⟩

/-- C5: per SKU and location, the reconciled incoming equals routed PO
quantity plus inbound transfers minus outgoing transfers floored at 0; the
whole PO quantity is routed to exactly one destination location; incoming is
never negative and is clamped to 0 exactly when outgoing transfers exceed
PO plus inbound transfers. -/
theorem incoming_reconciliation (destStr : String) (row : ReconRow) (loc : Loc) :
    incNum (poDest destStr) row loc
      = max 0 (poNet (poDest destStr) row loc + transTo row loc - transFrom row loc) ∧
    0 ≤ incNum (poDest destStr) row loc ∧
    (poNet (poDest destStr) row loc + transTo row loc < transFrom row loc →
      incNum (poDest destStr) row loc = 0) ∧
    (transFrom row loc ≤ poNet (poDest destStr) row loc + transTo row loc →
      incNum (poDest destStr) row loc
        = poNet (poDest destStr) row loc + transTo row loc - transFrom row loc) ∧
    poNet (poDest destStr) row (poDest destStr) = row.poQty ∧
    (∀ l : Loc, l ≠ poDest destStr → poNet (poDest destStr) row l = 0) := by
  refine ⟨rfl, le_max_left _ _, fun h => ?_, fun h => ?_, ?_, fun l hl => ?_⟩
  · exact max_eq_left (le_of_lt (by linarith))
  · exact max_eq_right (by linarith)
  · simp [poNet]
  · simp [poNet, hl]

/-- C5 witness: PO destination `"J"`, a SKU with PO 10, 4 units inbound to
Jasper and 20 outgoing from Hill: Jasper's incoming is 14, Hill clamps to 0. -/
theorem incoming_reconciliation_witness :
    incNum (poDest "J") ⟨10, 20, 0, 0, 0, 0, 4⟩ .jasper
      = poNet (poDest "J") ⟨10, 20, 0, 0, 0, 0, 4⟩ .jasper
        + transTo ⟨10, 20, 0, 0, 0, 0, 4⟩ .jasper
        - transFrom ⟨10, 20, 0, 0, 0, 0, 4⟩ .jasper ∧
    incNum (poDest "J") ⟨10, 20, 0, 0, 0, 0, 4⟩ .hill = 0 ∧
    poNet (poDest "J") ⟨10, 20, 0, 0, 0, 0, 4⟩ (poDest "J") = 10 ∧
    poNet (poDest "J") ⟨10, 20, 0, 0, 0, 0, 4⟩ .hill = 0 := by
  have hJ := incoming_reconciliation "J" ⟨10, 20, 0, 0, 0, 0, 4⟩ .jasper
  have hH := incoming_reconciliation "J" ⟨10, 20, 0, 0, 0, 0, 4⟩ .hill
  have hd : poDest "J" = Loc.jasper := by decide
  refine ⟨hJ.2.2.2.1 ?_, hH.2.2.1 ?_, hJ.2.2.2.2.1, hH.2.2.2.2.2 .hill ?_⟩
  · rw [hd]; simp [poNet, transTo, transFrom]; try norm_num
  · rw [hd]; simp [poNet, transTo, transFrom]; try norm_num
  · rw [hd]; decide

lemma filter_stampRows (file : List RawRow) (d : ℤ) :
    (stampRows file d).filter (fun r => r.date ≠ d) = [] := by
  simp [stampRows, List.filter_map]

lemma ingestStep_filter (master : List HRow) (file : List RawRow) (d : ℤ) :
    (ingestStep master file d).filter (fun r => r.date ≠ d)
      = master.filter (fun r => r.date ≠ d) := by
  unfold ingestStep
  rw [List.filter_append, filter_stampRows, List.append_nil, List.filter_filter]
  simp

/-- C8: ingestion is idempotent per snapshot date: re-ingesting the same
snapshot file any number of times yields exactly the same store (same rows,
same count) as ingesting it once, because all rows for that file's
report_end_date are removed before the new rows are appended. -/
theorem ingest_idempotent (master : List HRow) (file : List RawRow) (d : ℤ) :
    ingestStep (ingestStep master file d) file d = ingestStep master file d ∧
    (∀ n : ℕ, (fun s => ingestStep s file d)^[n + 1] master
      = ingestStep master file d) ∧
    (ingestStep (ingestStep master file d) file d).length
      = (ingestStep master file d).length := by
  have hidem : ingestStep (ingestStep master file d) file d
      = ingestStep master file d := by
    show (ingestStep master file d).filter (fun r => r.date ≠ d) ++ stampRows file d
        = ingestStep master file d
    rw [ingestStep_filter]
    rfl
  refine ⟨hidem, ?_, by rw [hidem]⟩
  intro n
  induction n with
  | zero => simp
  | succ n ih =>
      rw [Function.iterate_succ_apply', ih]
      exact hidem

/-- C7 counterexample: a snapshot file that lists the same (SKU, location)
twice leads to a reachable store state holding two rows for the triple
("A", Hill, day 0), so the claimed key invariant fails. -/
theorem history_key_unique_counterexample :
    Reachable (ingestStep [] [⟨"A", "Hill", 2⟩, ⟨"A", "Hill", 3⟩] 0) ∧
    ¬ KeyUnique (ingestStep [] [⟨"A", "Hill", 2⟩, ⟨"A", "Hill", 3⟩] 0) := by
  refine ⟨.step _ _ _ .empty, fun h => ?_⟩
  have h2 : ingestStep [] [⟨"A", "Hill", 2⟩, ⟨"A", "Hill", 3⟩] 0
      = [⟨"A", "Hill", 0, 2⟩, ⟨"A", "Hill", 0, 3⟩] := rfl
  rw [h2, KeyUnique, List.pairwise_cons] at h
  exact h.1 _ (List.mem_singleton.mpr rfl) ⟨rfl, rfl, rfl⟩

/-- C7 (amended): provided every ingested snapshot file has at most one row
per (SKU, location) pair, every reachable store state contains at most one
row per (SKU, location, report_end_date) triple: re-ingesting a date first
removes all prior rows for that date. -/
theorem history_key_unique_of_distinct_files (s : List HRow)
    (h : ReachableDistinct s) : KeyUnique s := by
  induction h with
  | empty => exact List.Pairwise.nil
  | step s file d hs hnodup ih =>
      unfold ingestStep
      rw [KeyUnique, List.pairwise_append]
      refine ⟨List.Pairwise.sublist (List.filter_sublist _) ih, ?_, ?_⟩
      · rw [stampRows, List.pairwise_map]
        rw [List.Nodup, List.pairwise_map] at hnodup
        refine hnodup.imp ?_
        intro a b hab hk
        exact hab (by rw [Prod.mk.injEq]; exact ⟨hk.1, hk.2.1⟩)
      · intro a ha b hb
        have hda : a.date ≠ d := by
          have := List.of_mem_filter ha
          simpa using this
        have hdb : b.date = d := by
          obtain ⟨r, _, rfl⟩ := List.mem_map.mp hb
          rfl
        rintro ⟨_, _, hdate⟩
        exact hda (by rw [hdate, hdb])

/-- C7 witness: a store reached by ingesting one well-formed single-row file
satisfies the key invariant. -/
theorem history_key_unique_of_distinct_files_witness :
    KeyUnique (ingestStep [] [⟨"A", "Hill", 2⟩] 0) :=
  history_key_unique_of_distinct_files _ (.step _ _ _ .empty (by decide))

/-- C9 counterexample: a SKU with a single snapshot inside the current window
and no earlier data.  The spec's rule (`claimedTrend`, equal-length prior
window, zero prior data with positive current window) classifies it
`New/Spiking`, but the code returns `Stable` (its trend block requires at
least 2 rows and never produces `New/Spiking`). -/
theorem rolling_trend_counterexample :
    (compute_rolling_velocities [⟨"A", "Other", 93, 10⟩] "A" none 100).trend
      = Trend.stable ∧
    claimedTrend [⟨"A", "Other", 93, 10⟩] "A" none 100 84 = Trend.newSpiking ∧
    Trend.stable ≠ Trend.newSpiking := by
  refine ⟨by decide, ?_, by decide⟩
  norm_num [claimedTrend, skuRows, List.filter]

/-- C9 (amended): the trend of the rolling-velocity query is computed inside
the trailing 12-week window only, split at the median report date: with at
least two rows and a positive older-half sum, growth above +20% is `Growing`
and decline below −20% is `Declining` (each carrying the percentage),
anything else — including an older half summing to zero — is `Stable`; a
SKU/location with no rows reports `No data`; there is no equal-length prior
window and `New/Spiking` is never produced. -/
theorem rolling_trend_spec (hist : List HRow) (sku : String)
    (location : Option String) (as_of_date : ℤ) :
    (skuRows hist sku location = [] →
      (compute_rolling_velocities hist sku location as_of_date).trend
        = Trend.noData) ∧
    (skuRows hist sku location ≠ [] →
      (compute_rolling_velocities hist sku location as_of_date).trend
        = trendOf ((skuRows hist sku location).filter
            fun r => as_of_date - 84 ≤ r.date)) ∧
    (∀ rows12 : List HRow, rows12.length < 2 → trendOf rows12 = Trend.stable) ∧
    (∀ rows12 : List HRow, 2 ≤ rows12.length →
      olderSum rows12 (medianDate (rows12.map (·.date))) ≤ 0 →
      trendOf rows12 = Trend.stable) ∧
    (∀ rows12 : List HRow, 2 ≤ rows12.length →
      0 < olderSum rows12 (medianDate (rows12.map (·.date))) →
      (∀ pct : ℚ, pct = (recentSum rows12 (medianDate (rows12.map (·.date)))
            - olderSum rows12 (medianDate (rows12.map (·.date))))
          / olderSum rows12 (medianDate (rows12.map (·.date))) * 100 →
        (20 < pct → trendOf rows12 = Trend.growing pct) ∧
        (pct < -20 → trendOf rows12 = Trend.declining pct) ∧
        (-20 ≤ pct → pct ≤ 20 → trendOf rows12 = Trend.stable))) ∧
    (∀ rows12 : List HRow, trendOf rows12 ≠ Trend.newSpiking) := by
  refine ⟨?_, ?_, ?_, ?_, ?_, ?_⟩
  · intro h
    simp [compute_rolling_velocities, h]
  · intro h
    rw [compute_rolling_velocities]
    rw [if_neg (show ¬ (skuRows hist sku location).length = 0 by simpa using h)]
  · intro rows12 h
    rw [trendOf, if_neg (by omega)]
  · intro rows12 h2 hold
    rw [trendOf, if_pos h2]
    simp only [not_lt.mpr hold, if_false]
  · intro rows12 h2 hold pct hpct
    refine ⟨fun hg => ?_, fun hd => ?_, fun hl hr => ?_⟩
    · rw [trendOf, if_pos h2]
      simp only [hold, if_true, ← hpct, hg, if_pos]
    · rw [trendOf, if_pos h2]
      have hng : ¬ 20 < pct := by linarith
      simp only [hold, if_true, ← hpct, hng, if_false, hd, if_pos]
    · rw [trendOf, if_pos h2]
      have hng : ¬ 20 < pct := not_lt.mpr hr
      have hnd : ¬ pct < -20 := not_lt.mpr hl
      simp only [hold, if_true, ← hpct, hng, hnd, if_false]
  · intro rows12
    simp only [trendOf]
    split_ifs <;> simp

/-- C9 witness: the single-snapshot SKU of the counterexample falls under the
fewer-than-two-rows case of the amended claim and yields `Stable`. -/
theorem rolling_trend_spec_witness :
    (compute_rolling_velocities [⟨"A", "Other", 93, 10⟩] "A" none 100).trend
      = trendOf (((skuRows [⟨"A", "Other", 93, 10⟩] "A" none)).filter
          fun r => (100 : ℤ) - 84 ≤ r.date) ∧
    trendOf (((skuRows [⟨"A", "Other", 93, 10⟩] "A" none)).filter
          fun r => (100 : ℤ) - 84 ≤ r.date) = Trend.stable := by
  have h := rolling_trend_spec [⟨"A", "Other", 93, 10⟩] "A" none 100
  exact ⟨h.2.1 (by decide), h.2.2.1 _ (by decide)⟩

/-- C6 counterexample: a history store with a rolling 4-week velocity of 5
for SKU "A", and a current run whose metrics give velocity 7.  The claimed
rule would use 5, but the pipeline's `apply_soq_and_status` uses the
current-run velocity 7 for status and SOQ — the history store is never
consulted. -/
theorem velocity_blending_counterexample :
    0 < (compute_rolling_velocities [⟨"A", "Other", 95, 20⟩] "A" none 100).vel_4w ∧
    claimedUsedVelocity [⟨"A", "Other", 95, 20⟩] "A" none 100
      ⟨0, 0, false, 7, 7, 0, none⟩ = 5 ∧
    (apply_soq_and_status ⟨0, 0, false, 7, 7, 0, none⟩
      ⟨2, 5/2, 4, 26, 5, 1/4⟩ 1).vel = 7 ∧
    (apply_soq_and_status ⟨0, 0, false, 7, 7, 0, none⟩
        ⟨2, 5/2, 4, 26, 5, 1/4⟩ 1).vel
      ≠ claimedUsedVelocity [⟨"A", "Other", 95, 20⟩] "A" none 100
          ⟨0, 0, false, 7, 7, 0, none⟩ := by
  have h4 : (compute_rolling_velocities [⟨"A", "Other", 95, 20⟩] "A" none 100).vel_4w
      = 5 := by
    norm_num [compute_rolling_velocities, skuRows, List.filter]
  have hvel : (apply_soq_and_status ⟨0, 0, false, 7, 7, 0, none⟩
      ⟨2, 5/2, 4, 26, 5, 1/4⟩ 1).vel = 7 := by
    norm_num [apply_soq_and_status, InventoryMetrics.calculate_velocity,
      InventoryMetrics.period_days]
  have hclaim : claimedUsedVelocity [⟨"A", "Other", 95, 20⟩] "A" none 100
      ⟨0, 0, false, 7, 7, 0, none⟩ = 5 := by
    rw [claimedUsedVelocity]
    simp only [h4]
    norm_num
  refine ⟨by rw [h4]; norm_num, hclaim, hvel, ?_⟩
  rw [hvel, hclaim]
  norm_num

/-- C6 (amended): the status/SOQ pipeline never blends with history: even
when a history store yields a strictly positive rolling 4-week velocity, the
velocity used by `apply_soq_and_status` is the current-run
`calculate_velocity`, the status is `determine_status` on the current-run
metrics, and the SOQ is `calculate_soq` on the current-run metrics. -/
theorem soq_status_use_current_velocity_only (m : InventoryMetrics)
    (rules : StatusRules) (case_size : ℤ) (hist : List HRow) (sku : String)
    (location : Option String) (as_of_date : ℤ)
    (_hpos : 0 < (compute_rolling_velocities hist sku location as_of_date).vel_4w) :
    (apply_soq_and_status m rules case_size).vel = m.calculate_velocity ∧
    (apply_soq_and_status m rules case_size).status = determine_status m rules ∧
    (apply_soq_and_status m rules case_size).soq
      = calculate_soq m rules (max case_size 1) :=
  ⟨rfl, rfl, rfl⟩

/-- C6 witness: the counterexample's history store has positive rolling
velocity, and the pipeline still uses the current-run figures. -/
theorem soq_status_use_current_velocity_only_witness :
    (apply_soq_and_status ⟨0, 0, false, 7, 7, 0, none⟩ ⟨2, 5/2, 4, 26, 5, 1/4⟩ 1).vel
      = InventoryMetrics.calculate_velocity ⟨0, 0, false, 7, 7, 0, none⟩ ∧
    (apply_soq_and_status ⟨0, 0, false, 7, 7, 0, none⟩ ⟨2, 5/2, 4, 26, 5, 1/4⟩ 1).status
      = determine_status ⟨0, 0, false, 7, 7, 0, none⟩ ⟨2, 5/2, 4, 26, 5, 1/4⟩ ∧
    (apply_soq_and_status ⟨0, 0, false, 7, 7, 0, none⟩ ⟨2, 5/2, 4, 26, 5, 1/4⟩ 1).soq
      = calculate_soq ⟨0, 0, false, 7, 7, 0, none⟩ ⟨2, 5/2, 4, 26, 5, 1/4⟩ (max 1 1) :=
  soq_status_use_current_velocity_only _ _ _ [⟨"A", "Other", 95, 20⟩] "A" none 100
    (by norm_num [compute_rolling_velocities, skuRows, List.filter])

/-- C8 witness: re-ingesting a concrete one-row snapshot file leaves the
store unchanged. -/
theorem ingest_idempotent_witness :
    ingestStep (ingestStep [] [⟨"A", "Hill", 2⟩] 0) [⟨"A", "Hill", 2⟩] 0
      = ingestStep [] [⟨"A", "Hill", 2⟩] 0 :=
  (ingest_idempotent [] [⟨"A", "Hill", 2⟩] 0).1
